import Mathlib

/-!
Shallow embedding of the ResExt error-context library.

Byte strings (Rust `Vec<u8>`, `&[u8]`, `&str` contents) are modelled as
`List Nat` of byte values.  `Vec<u8>` capacity calls (`capacity`,
`reserve_exact`, `Vec::with_capacity`) affect only allocation, never the
stored bytes, so the model keeps contents only.  Rust `Result<T, E>` is
modelled by `RResult`, and `Display`/`Debug` of the generic source error
`E` are modelled by explicit rendering functions `E → List Nat`.
-/

namespace ResExtSpec

/-- Rust `Result<T, E>`. -/
inductive RResult (T : Type) (E : Type) where
  | ok : T → RResult T E
  | err : E → RResult T E
deriving DecidableEq

/-- `src/src/ctx.rs`: `pub struct ErrCtx<E> { pub msg: Vec<u8>, pub source: E }`. -/
structure ErrCtx (E : Type) where
  msg : List Nat
  source : E
deriving DecidableEq

/-- The bytes of `b"\n- "`, the separator the context methods append. -/
def sepBytes : List Nat := [10, 45, 32]

/-- The bytes of `"\nCaused by: "` from the `Display`/`Debug` impls in `src/src/ctx.rs`. -/
def causedByBytes : List Nat := [10, 67, 97, 117, 115, 101, 100, 32, 98, 121, 58, 32]

/-- `src/src/ctx.rs`, `impl From<E> for ErrCtx<E>`:
`Self { msg: Vec::with_capacity(0), source: value }`. -/
def errCtxFrom {E : Type} (value : E) : ErrCtx E :=
  { msg := [], source := value }

/-- `src/src/ctx.rs`, `ErrCtx::new(source, mut msg)`: stores the taken `msg` bytes
verbatim (`std::mem::take` moves the vector; the stored bytes are `msg`). -/
def ErrCtx.new {E : Type} (source : E) (msg : List Nat) : ErrCtx E :=
  { msg := msg, source := source }

/-- `src/src/ctx.rs`, `Display for ErrCtx`: empty `msg` delegates to the source;
otherwise `write!(f, "{}\nCaused by: {}\n", msg, source)`.  `dispE` renders the
source error's `Display`. -/
def ErrCtx.display {E : Type} (dispE : E → List Nat) (c : ErrCtx E) : List Nat :=
  if c.msg = [] then dispE c.source
  else c.msg ++ causedByBytes ++ dispE c.source ++ [10]

/-- `src/src/ctx.rs`, `Debug for ErrCtx`: same shape with the source's `Debug`. -/
def ErrCtx.debug {E : Type} (debugE : E → List Nat) (c : ErrCtx E) : List Nat :=
  if c.msg = [] then debugE c.source
  else c.msg ++ causedByBytes ++ debugE c.source ++ [10]

/-- `src/src/ctx.rs`, `Error for ErrCtx`: `fn source(&self) -> ... { Some(&self.source) }`. -/
def ErrCtx.errorSource {E : Type} (c : ErrCtx E) : Option E :=
  some c.source

/-- `src/src/ctx.rs`, `Error for ErrCtx`: `fn cause(&self) -> ... { Some(&self.source) }`. -/
def ErrCtx.errorCause {E : Type} (c : ErrCtx E) : Option E :=
  some c.source

/-- `src/src/res_ext_methods/context.rs`, `new_context_impl`: first `.context(msg)`
on a `Result<T, E>` wraps the error with `msg` bytes as the buffer. -/
def new_context_impl {T E : Type} (res : RResult T E) (msg : List Nat) :
    RResult T (ErrCtx E) :=
  match res with
  | .ok v => .ok v
  | .err e => .err { msg := msg, source := e }

/-- `src/src/res_ext_methods/context.rs`, `extra_ctx_impl`: `.context(msg)` on a
`Result<T, ErrCtx<E>>` reserves capacity (contents unaffected), then
`extend_from_slice(b"\n- ")` and `extend_from_slice(msg)`. -/
def extra_ctx_impl {T E : Type} (res : RResult T (ErrCtx E)) (msg : List Nat) :
    RResult T (ErrCtx E) :=
  match res with
  | .ok v => .ok v
  | .err e => .err { msg := (e.msg ++ sepBytes) ++ msg, source := e.source }

/-- `src/src/res_ext_methods/with_context.rs`, `with_context_impl`: like
`new_context_impl` but the message is the closure's output, evaluated only on
`Err`. -/
def with_context_impl {T E : Type} (res : RResult T E) (closure : Unit → List Nat) :
    RResult T (ErrCtx E) :=
  match res with
  | .ok v => .ok v
  | .err e => .err { msg := closure (), source := e }

/-- `src/src/res_ext_methods/with_context.rs`, `extra_with_ctx_impl`: like
`extra_ctx_impl` with the closure's output. -/
def extra_with_ctx_impl {T E : Type} (res : RResult T (ErrCtx E))
    (closure : Unit → List Nat) : RResult T (ErrCtx E) :=
  match res with
  | .ok v => .ok v
  | .err e => .err { msg := (e.msg ++ sepBytes) ++ closure (), source := e.source }

/-- `src/src/res_ext_methods/context.rs`, `byte_context_impl`: first
`.byte_context(bytes)` stores the taken bytes verbatim. -/
def byte_context_impl {T E : Type} (res : RResult T E) (bytes : List Nat) :
    RResult T (ErrCtx E) :=
  match res with
  | .ok v => .ok v
  | .err e => .err { msg := bytes, source := e }

/-- `src/src/res_ext_methods/context.rs`, `extra_byte_context_impl`: appends
`b"\n- "` then the raw bytes. -/
def extra_byte_context_impl {T E : Type} (res : RResult T (ErrCtx E))
    (bytes : List Nat) : RResult T (ErrCtx E) :=
  match res with
  | .ok v => .ok v
  | .err e => .err { msg := (e.msg ++ sepBytes) ++ bytes, source := e.source }

/-- Folding a sequence of `.context` calls over a result, oldest first. -/
def chainCtx {T E : Type} (res : RResult T (ErrCtx E)) (ms : List (List Nat)) :
    RResult T (ErrCtx E) :=
  ms.foldl extra_ctx_impl res

/-- The `msg` buffer of an `Err(ErrCtx)`; `[]` on `Ok`. -/
def ctxMsg {T E : Type} : RResult T (ErrCtx E) → List Nat
  | .ok _ => []
  | .err e => e.msg

/-! ### The declarative-macro variant (`src/src/enum_macro.rs`)

`ResExt!` generates `struct ResErr { msg: Vec<u8>, source: $name }` where
`$name` is the user's error enum.  The enum's generated `Display` writes the
wrapped inner value's `Display` (`write!(f, "{}", var)`), so the enum is
modelled as an abstract source type `S` with a rendering function. -/

/-- `src/src/enum_macro.rs`: `struct ResErr { msg: Vec<u8>, source: $name }`. -/
structure ResErr (S : Type) where
  msg : List Nat
  source : S
deriving DecidableEq

/-- `src/src/enum_macro.rs`, `impl From<$name> for ResErr`:
`Self { msg: Vec::new(), source: value }`. -/
def resErrFrom {S : Type} (value : S) : ResErr S :=
  { msg := [], source := value }

/-- `src/src/enum_macro.rs`, generated `ResExt::context` for `Result<T, ResErr>`:
an empty buffer gets the message with no separator; a non-empty buffer gets
`b"\n- "` then the message (the `diff`/`reserve_exact` step only affects
capacity). -/
def resErrContext {T S : Type} (res : RResult T (ResErr S)) (msg : List Nat) :
    RResult T (ResErr S) :=
  match res with
  | .ok v => .ok v
  | .err e =>
    if e.msg = [] then .err { msg := e.msg ++ msg, source := e.source }
    else .err { msg := (e.msg ++ sepBytes) ++ msg, source := e.source }

/-- `src/src/enum_macro.rs`, generated `ResExt::context` for `Result<T, E>` with
`$name: From<E>`: `Err(ResErr { msg: msg.as_bytes().to_vec(), source: err.into() })`.
`intoS` models the `From<E> for $name` conversion. -/
def resErrNewContext {T E S : Type} (intoS : E → S) (res : RResult T E)
    (msg : List Nat) : RResult T (ResErr S) :=
  match res with
  | .ok v => .ok v
  | .err e => .err { msg := msg, source := intoS e }

/-- `src/src/enum_macro.rs`, generated `Display for ResErr`: same shape as
`Display for ErrCtx` (`"{}\nCaused by: {}\n"` when the buffer is non-empty). -/
def ResErr.display {S : Type} (dispS : S → List Nat) (e : ResErr S) : List Nat :=
  if e.msg = [] then dispS e.source
  else e.msg ++ causedByBytes ++ dispS e.source ++ [10]

/-- Folding a sequence of generated `.context` calls over a result, oldest first. -/
def chainRes {T S : Type} (res : RResult T (ResErr S)) (ms : List (List Nat)) :
    RResult T (ResErr S) :=
  ms.foldl resErrContext res

/-- The `msg` buffer of an `Err(ResErr)`; `[]` on `Ok`. -/
def resMsg {T S : Type} : RResult T (ResErr S) → List Nat
  | .ok _ => []
  | .err e => e.msg

/-! ### Terminal-failure helpers (`or_exit.rs`, `better_expect.rs`)

`std::process::exit(code)` and `eprintln!` are modelled by an outcome value
recording the exit code and the list of lines printed to stderr. -/

/-- Observable outcome of a terminal-failure helper: either the `Ok` value, or
process termination with an exit code and the stderr lines printed before it. -/
inductive Outcome (T : Type) where
  | value : T → Outcome T
  | exited : Int → List (List Nat) → Outcome T
deriving DecidableEq

/-- `src/src/res_ext_methods/or_exit.rs`, `or_exit_impl`: `Ok(t) => t`,
`Err(_) => exit(code)` with nothing printed. -/
def or_exit_impl {T E : Type} (res : RResult T E) (code : Int) : Outcome T :=
  match res with
  | .ok t => .value t
  | .err _ => .exited code []

/-- The bytes of `": "` from `eprintln!("{}: {}", msg, e)`. -/
def colonSpaceBytes : List Nat := [58, 32]

/-- `src/src/res_ext_methods/better_expect.rs`, `better_expect_impl`: `Ok(t) => t`;
on `Err(e)` with `verbose` it prints the line `msg ++ ": " ++ Display(e)` and
exits, otherwise it prints the line `msg` and exits. -/
def better_expect_impl {T E : Type} (dispE : E → List Nat) (res : RResult T E)
    (msg : List Nat) (code : Int) (verbose : Bool) : Outcome T :=
  match res with
  | .ok t => .value t
  | .err e =>
    if verbose then .exited code [(msg ++ colonSpaceBytes) ++ dispE e]
    else .exited code [msg]

/-! ### The fixed-size buffer (`src/resext/src/enum_macro.rs`, `__gen_res_buf`)

`ResBuf { curr_pos: u16, buf: [u8; SIZE] }`.  Only `buf[..curr_pos]` is ever
read (`as_str`, `get_slice`), so the state is modelled as the stored prefix
`content` with `curr_pos = content.length`, plus the macro's `SIZE`. -/

/-- The fixed-size buffer: `size` is the macro's `SIZE`; `content` is
`buf[..curr_pos as usize]`. -/
structure ResBuf where
  size : Nat
  content : List Nat
deriving DecidableEq

/-- `ResBuf::new()`: zeroed buffer, `curr_pos = 0`. -/
def ResBuf.mk_new (size : Nat) : ResBuf :=
  { size := size, content := [] }

/-- `(b & 0xC0) != 0x80`: `b` is not a UTF-8 continuation byte. -/
def isStartByte (b : Nat) : Bool :=
  b &&& 0xC0 != 0x80

/-- `slice.iter().rposition(pred)` for `pred = isStartByte`: index of the last
non-continuation byte, if any. -/
def rposStart : List Nat → Option Nat
  | [] => none
  | b :: r =>
    match rposStart r with
    | some i => some (i + 1)
    | none => if isStartByte b then some 0 else none

/-- The generated width table: `0..=127 => 1, 192..=223 => 2, 224..=239 => 3,
240..=247 => 4, _ => 1`. -/
def charWidth (b : Nat) : Nat :=
  if b ≤ 127 then 1
  else if 192 ≤ b ∧ b ≤ 223 then 2
  else if 224 ≤ b ∧ b ≤ 239 then 3
  else if 240 ≤ b ∧ b ≤ 247 then 4
  else 1

/-- `to_copy` as computed by `ResBuf::write_str` in `src/resext/src/enum_macro.rs`
(`__gen_res_buf`): the final guard compares `start_of_last_char + width` against
`bytes.len()`. -/
def toCopyDecl (size pos : Nat) (bytes : List Nat) : Nat :=
  let cap := size - pos
  match rposStart (bytes.take (min bytes.length cap)) with
  | none => 0
  | some s =>
    let w := charWidth (bytes.getD s 0)
    if s + w ≤ bytes.length then s + w else s

/-- `to_copy` as computed by the `write_str` generated by the `#[resext]` proc
macro (`src/resext-macro/src/lib.rs`): the guard compares against
`limit = min(bytes.len(), cap)`. -/
def toCopyProc (size pos : Nat) (bytes : List Nat) : Nat :=
  let cap := size - pos
  let limit := min bytes.length cap
  match rposStart (bytes.take limit) with
  | none => 0
  | some s =>
    let w := charWidth (bytes.getD s 0)
    if s + w ≤ limit then s + w else s

/-- `ResBuf::write_str` from `__gen_res_buf`: computes `to_copy` with the
`bytes.len()` guard, then runs `self.buf[pos..pos + to_copy].copy_from_slice(..)`.
When `pos + to_copy > SIZE` that slice indexing panics in Rust, modelled as
`none`. -/
def ResBuf.writeStrDecl (st : ResBuf) (bytes : List Nat) : Option ResBuf :=
  let n := toCopyDecl st.size st.content.length bytes
  if st.content.length + n ≤ st.size then
    some { st with content := st.content ++ bytes.take n }
  else none

/-- `write_str` generated by the `#[resext]` proc macro: `to_copy ≤ limit ≤ cap`
always holds, so the copy is total. -/
def ResBuf.writeStrProc (st : ResBuf) (bytes : List Nat) : ResBuf :=
  let n := toCopyProc st.size st.content.length bytes
  { st with content := st.content ++ bytes.take n }

/-! ### UTF-8 validity

A byte list is valid UTF-8 (structurally) when it parses as a sequence of
1–4-byte characters: an ASCII byte, or a lead byte of the given range followed
by the right number of continuation bytes. -/

/-- `b` is a UTF-8 continuation byte (`0x80..=0xBF`). -/
def contB (b : Nat) : Bool :=
  decide (128 ≤ b) && decide (b ≤ 191)

/-- UTF-8 scanner: `utf8Run n l` holds when `l` starts with `n` continuation
bytes and the remainder parses as a sequence of UTF-8 characters (ASCII byte,
or a lead byte in `0xC0..=0xDF` / `0xE0..=0xEF` / `0xF0..=0xF7` followed by
1 / 2 / 3 continuation bytes). -/
def utf8Run : Nat → List Nat → Bool
  | 0, [] => true
  | _ + 1, [] => false
  | 0, b :: r =>
    if b ≤ 127 then utf8Run 0 r
    else if b ≤ 191 then false
    else if b ≤ 223 then utf8Run 1 r
    else if b ≤ 239 then utf8Run 2 r
    else if b ≤ 247 then utf8Run 3 r
    else false
  | n + 1, b :: r => contB b && utf8Run n r

/-- Structural UTF-8 validity of a byte list. -/
def validUtf8 (l : List Nat) : Bool := utf8Run 0 l

/-! ### Helper lemmas -/

/-- Chaining `.context` calls on an `Err(ErrCtx)` appends `"\n- " ++ mᵢ` for each
message, oldest first. -/
theorem chainCtx_err {T E : Type} (ms : List (List Nat)) (c : ErrCtx E) :
    chainCtx (T := T) (.err c) ms =
      .err { msg := c.msg ++ (ms.map (fun m => sepBytes ++ m)).flatten,
             source := c.source } := by
  induction ms generalizing c with
  | nil => simp [chainCtx]
  | cons m ms ih =>
    have step : chainCtx (T := T) (.err c) (m :: ms) =
        chainCtx (T := T) (.err { msg := (c.msg ++ sepBytes) ++ m,
                                  source := c.source }) ms := rfl
    rw [step, ih]
    simp [List.append_assoc]

/-- Chaining generated `.context` calls on an `Err(ResErr)` with a non-empty
buffer likewise appends `"\n- " ++ mᵢ` for each message. -/
theorem chainRes_err_ne {T S : Type} (ms : List (List Nat)) (e : ResErr S)
    (h : e.msg ≠ []) :
    chainRes (T := T) (.err e) ms =
      .err { msg := e.msg ++ (ms.map (fun m => sepBytes ++ m)).flatten,
             source := e.source } := by
  induction ms generalizing e with
  | nil => simp [chainRes]
  | cons m ms ih =>
    have step : chainRes (T := T) (.err e) (m :: ms) =
        chainRes (T := T) (resErrContext (.err e) m) ms := rfl
    rw [step]
    have hctx : resErrContext (T := T) (.err e) m =
        .err { msg := (e.msg ++ sepBytes) ++ m, source := e.source } := by
      simp [resErrContext, h]
    rw [hctx, ih _ (by simp [h])]
    simp [List.append_assoc]

/-- Appending a valid UTF-8 byte list on the right preserves a `utf8Run` state. -/
theorem utf8Run_append (bts : List Nat) (hb : utf8Run 0 bts = true) :
    ∀ (a : List Nat) (n : Nat), utf8Run n a = true → utf8Run n (a ++ bts) = true := by
  intro a
  induction a with
  | nil =>
    intro n ha
    cases n with
    | zero => simpa using hb
    | succ n => simp [utf8Run] at ha
  | cons x r ih =>
    intro n ha
    cases n with
    | zero =>
      simp only [List.cons_append]
      by_cases h1 : x ≤ 127
      · simp only [utf8Run, if_pos h1] at ha ⊢
        exact ih 0 ha
      by_cases h2 : x ≤ 191
      · simp only [utf8Run, if_neg h1, if_pos h2] at ha
        exact (Bool.false_ne_true ha).elim
      by_cases h3 : x ≤ 223
      · simp only [utf8Run, if_neg h1, if_neg h2, if_pos h3] at ha ⊢
        exact ih 1 ha
      by_cases h4 : x ≤ 239
      · simp only [utf8Run, if_neg h1, if_neg h2, if_neg h3, if_pos h4] at ha ⊢
        exact ih 2 ha
      by_cases h5 : x ≤ 247
      · simp only [utf8Run, if_neg h1, if_neg h2, if_neg h3, if_neg h4,
          if_pos h5] at ha ⊢
        exact ih 3 ha
      · simp only [utf8Run, if_neg h1, if_neg h2, if_neg h3, if_neg h4,
          if_neg h5] at ha
        exact (Bool.false_ne_true ha).elim
    | succ n =>
      simp only [List.cons_append, utf8Run, Bool.and_eq_true] at ha ⊢
      exact ⟨ha.1, ih n ha.2⟩

/-- The concatenation of two valid UTF-8 byte lists is valid UTF-8. -/
theorem validUtf8_append (a b : List Nat) (ha : validUtf8 a = true)
    (hb : validUtf8 b = true) : validUtf8 (a ++ b) = true :=
  utf8Run_append b hb a 0 ha

/-- `b"\n- "` is valid UTF-8 (all ASCII). -/
theorem validUtf8_sepBytes : validUtf8 sepBytes = true := by decide

end ResExtSpec

namespace ResExtSpec

/-! ### Display projections for comparing the two variants -/

/-- `Display` of a `Result<T, ErrCtx<E>>`'s error, `[]` on `Ok`. -/
def ctxDisplayOf {T E : Type} (dispE : E → List Nat) :
    RResult T (ErrCtx E) → List Nat
  | .ok _ => []
  | .err e => ErrCtx.display dispE e

/-- `Display` of a `Result<T, ResErr>`'s error, `[]` on `Ok`. -/
def resDisplayOf {T S : Type} (dispS : S → List Nat) :
    RResult T (ResErr S) → List Nat
  | .ok _ => []
  | .err e => ResErr.display dispS e

/-! ### Claims -/

/-- **C1.** On `Result<T, ErrCtx<E>>`, `.context(m)` maps `Err(e)` to `Err(e')`
with `e'.source = e.source` and `e'.msg = e.msg ++ b"\n- " ++ m`;
`.with_context(f)` appends `b"\n- " ++ f()` the same way; both map `Ok(v)` to
`Ok(v)`. -/
theorem c1_context_appends_sep_then_msg {T E : Type} (e : ErrCtx E)
    (m : List Nat) (f : Unit → List Nat) (v : T) :
    extra_ctx_impl (T := T) (.err e) m =
      .err { msg := e.msg ++ sepBytes ++ m, source := e.source } ∧
    extra_with_ctx_impl (T := T) (.err e) f =
      .err { msg := e.msg ++ sepBytes ++ f (), source := e.source } ∧
    extra_ctx_impl (E := E) (.ok v) m = .ok v ∧
    extra_with_ctx_impl (E := E) (.ok v) f = .ok v := by
  refine ⟨?_, ?_, rfl, rfl⟩ <;>
    simp [extra_ctx_impl, extra_with_ctx_impl, List.append_assoc]

/-- **C2.** With a non-empty `msg` buffer, `Display` of `ErrCtx` is exactly the
`msg` bytes, then `"\nCaused by: "`, then the source's `Display`, then `"\n"`;
and a chain of `.context` calls accumulates the context strings in the order
added, most-recently-added last. -/
theorem c2_display_shape_and_context_order {T E : Type} (dispE : E → List Nat)
    (c : ErrCtx E) (h : c.msg ≠ []) (ms : List (List Nat)) :
    ErrCtx.display dispE c = c.msg ++ causedByBytes ++ dispE c.source ++ [10] ∧
    chainCtx (T := T) (.err c) ms =
      .err { msg := c.msg ++ (ms.map (fun m => sepBytes ++ m)).flatten,
             source := c.source } :=
  ⟨by simp [ErrCtx.display, h], chainCtx_err ms c⟩

/-- Witness for C2 at a concrete state: `msg = "h"`, contexts `"a"` then `"b"`. -/
theorem c2_display_shape_and_context_order_witness :
    (([104] : List Nat) ≠ []) ∧
    (ErrCtx.display (fun _ : Unit => [115]) ⟨[104], ()⟩ =
        [104] ++ causedByBytes ++ (fun _ : Unit => [115]) () ++ [10] ∧
      chainCtx (T := Unit) (.err ⟨[104], ()⟩) [[97], [98]] =
        .err { msg := [104] ++ (([[97], [98]]).map
                 (fun m => sepBytes ++ m)).flatten,
               source := () }) :=
  ⟨by decide,
   c2_display_shape_and_context_order (T := Unit) (fun _ : Unit => [115])
     ⟨[104], ()⟩ (by decide) [[97], [98]]⟩

/-- **C5.** Happy path: `context`, `with_context` and `byte_context` (both the
first-wrap and the accumulating forms) return `Ok(v)` unchanged, and the result
on `Ok` does not depend on the message, closure or byte argument. -/
theorem c5_happy_path_untouched {T E : Type} (v : T) (m m' b b' : List Nat)
    (f f' : Unit → List Nat) :
    new_context_impl (E := E) (.ok v) m = .ok v ∧
    with_context_impl (E := E) (.ok v) f = .ok v ∧
    byte_context_impl (E := E) (.ok v) b = .ok v ∧
    extra_ctx_impl (E := E) (.ok v) m = .ok v ∧
    extra_with_ctx_impl (E := E) (.ok v) f = .ok v ∧
    extra_byte_context_impl (E := E) (.ok v) b = .ok v ∧
    new_context_impl (E := E) (.ok v) m = new_context_impl (.ok v) m' ∧
    with_context_impl (E := E) (.ok v) f = with_context_impl (.ok v) f' ∧
    byte_context_impl (E := E) (.ok v) b = byte_context_impl (.ok v) b' ∧
    extra_ctx_impl (E := E) (.ok v) m = extra_ctx_impl (.ok v) m' ∧
    extra_with_ctx_impl (E := E) (.ok v) f = extra_with_ctx_impl (.ok v) f' ∧
    extra_byte_context_impl (E := E) (.ok v) b =
      extra_byte_context_impl (.ok v) b' :=
  ⟨rfl, rfl, rfl, rfl, rfl, rfl, rfl, rfl, rfl, rfl, rfl, rfl⟩

/-- **C6.** With an empty `msg` buffer, `Display` and `Debug` of `ErrCtx`
delegate exactly to the source's `Display`/`Debug` (no `"Caused by: "` text);
and for every `ErrCtx` value — empty buffer or not — `Error::source()` and
`cause()` return `Some(source)`, never `None`. -/
theorem c6_empty_msg_delegates_to_source {E : Type} (dispE debugE : E → List Nat)
    (c : ErrCtx E) (h : c.msg = []) :
    ErrCtx.display dispE c = dispE c.source ∧
    ErrCtx.debug debugE c = debugE c.source ∧
    ∀ c' : ErrCtx E, ErrCtx.errorSource c' = some c'.source ∧
      ErrCtx.errorCause c' = some c'.source := by
  refine ⟨?_, ?_, fun c' => ⟨rfl, rfl⟩⟩ <;> simp [ErrCtx.display, ErrCtx.debug, h]

/-- Witness for C6: delegation at the empty-buffer `ErrCtx` over `Unit`, and
`source()`/`cause()` at a non-empty-buffer value. -/
theorem c6_empty_msg_delegates_to_source_witness :
    ErrCtx.display (fun _ : Unit => [100]) ⟨[], ()⟩ = [100] ∧
    ErrCtx.debug (fun _ : Unit => [101]) ⟨[], ()⟩ = [101] ∧
    ErrCtx.errorSource (⟨[104], ()⟩ : ErrCtx Unit) = some () ∧
    ErrCtx.errorCause (⟨[104], ()⟩ : ErrCtx Unit) = some () := by
  have h := c6_empty_msg_delegates_to_source (fun _ : Unit => [100])
    (fun _ : Unit => [101]) ⟨[], ()⟩ rfl
  exact ⟨h.1, h.2.1, (h.2.2 ⟨[104], ()⟩).1, (h.2.2 ⟨[104], ()⟩).2⟩

/-- **C7.** `or_exit` returns the value on `Ok` and exits with exactly the given
code, printing nothing, on `Err`; `better_expect` returns the value on `Ok` and
on `Err` prints `msg ++ ": " ++ Display(e)` when verbose (just `msg` otherwise)
before exiting with exactly the given code. -/
theorem c7_terminal_helpers {T E : Type} (dispE : E → List Nat) (t : T) (e : E)
    (m : List Nat) (code : Int) :
    or_exit_impl (E := E) (.ok t) code = .value t ∧
    or_exit_impl (T := T) (.err e) code = .exited code [] ∧
    better_expect_impl dispE (.ok t) m code true = .value t ∧
    better_expect_impl dispE (.ok t) m code false = .value t ∧
    better_expect_impl (T := T) dispE (.err e) m code true =
      .exited code [m ++ colonSpaceBytes ++ dispE e] ∧
    better_expect_impl (T := T) dispE (.err e) m code false =
      .exited code [m] := by
  refine ⟨rfl, rfl, rfl, rfl, ?_, rfl⟩
  simp [better_expect_impl, List.append_assoc]

/-- **C10.** `.context(m)` on an `Err(ErrCtx)` whose buffer is empty (e.g. one
made by the `From<E>` conversion) yields the buffer `b"\n- " ++ m`: the
separator is emitted with no prior fragment, so the rendered message starts
with a newline and a dash. -/
theorem c10_first_context_on_empty_buffer_prefixes_sep {T E : Type}
    (c : ErrCtx E) (m : List Nat) (dispE : E → List Nat) (h : c.msg = []) :
    extra_ctx_impl (T := T) (.err c) m =
      .err { msg := sepBytes ++ m, source := c.source } ∧
    (errCtxFrom c.source).msg = [] ∧
    (ErrCtx.display dispE { msg := sepBytes ++ m, source := c.source }).take 2 =
      [10, 45] := by
  refine ⟨by simp [extra_ctx_impl, h], rfl, ?_⟩
  have hne : sepBytes ++ m ≠ [] := by simp [sepBytes]
  simp [ErrCtx.display, hne, sepBytes]

/-- Witness for C10: the `From`-converted error over `Unit` and context `"a"`. -/
theorem c10_first_context_on_empty_buffer_prefixes_sep_witness :
    extra_ctx_impl (T := Unit) (.err (⟨[], ()⟩ : ErrCtx Unit)) [97] =
      .err { msg := sepBytes ++ [97], source := () } ∧
    (errCtxFrom ()).msg = [] ∧
    (ErrCtx.display (fun _ : Unit => [115])
        { msg := sepBytes ++ [97], source := () }).take 2 = [10, 45] :=
  c10_first_context_on_empty_buffer_prefixes_sep ⟨[], ()⟩ [97]
    (fun _ : Unit => [115]) rfl

set_option maxRecDepth 4000 in
/-- **C3** (code bug, evaluated at the failing input).  At the default size 94
with 93 bytes stored (`cap = 1`), writing `"é"` (`[0xC3, 0xA9]`): the
proc-macro `write_str` truncates to 0 bytes and leaves the buffer intact, but
the declarative `__gen_res_buf` `write_str` computes `to_copy = 2 > cap` —
its guard compares against `bytes.len()` instead of `limit` — so
`buf[93..95]` on `[u8; 94]` is out of bounds and the write panics (`none`). -/
theorem c3_declarative_write_str_overruns_at_boundary :
    ResBuf.writeStrProc { size := 94, content := List.replicate 93 97 }
        [195, 169] = { size := 94, content := List.replicate 93 97 } ∧
    toCopyDecl 94 93 [195, 169] = 2 ∧
    ResBuf.writeStrDecl { size := 94, content := List.replicate 93 97 }
        [195, 169] = none := by decide

/-- **C9** (code bug, evaluated at the failing input).  For the explicit-size
buffer with `SIZE = 4`: writing `"abc"` into a fresh buffer succeeds, after
which `curr_pos = 3` and `cap = 1`; then writing the 2-byte char `"é"`
computes `to_copy = 2 > SIZE - curr_pos`, so the copy's destination slice
`buf[3..5]` leaves the array bounds and `write_str` panics (`none`). -/
theorem c9_resbuf_write_str_panics_on_split_char :
    ResBuf.writeStrDecl (ResBuf.mk_new 4) [97, 98, 99] =
      some { size := 4, content := [97, 98, 99] } ∧
    toCopyDecl 4 3 [195, 169] = 2 ∧
    ResBuf.writeStrDecl { size := 4, content := [97, 98, 99] } [195, 169] =
      none := by decide

/-- **C4** (counterexample).  Starting from the no-context `From` conversion and
applying the same single `.context("a")` call, the hand-written `ErrCtx`
variant accumulates `b"\n- a"` while the declarative-macro `ResErr` variant
accumulates `b"a"`: the two buffers differ. -/
theorem c4_from_start_chains_differ :
    ctxMsg (chainCtx (T := Unit) (.err (errCtxFrom ())) [[97]]) ≠
      resMsg (chainRes (T := Unit) (.err (resErrFrom ())) [[97]]) := by decide

/-- **C4** (amended).  When both variants start from a first `.context(m)` call
with `m` non-empty, applying the same sequence of further `.context` calls
yields identical accumulated message bytes and identical `Display` output
(message bytes, then `"\nCaused by: "`, then the source's `Display`, then
`"\n"`).  Starting from the `From` conversion they differ: `ErrCtx` prefixes
`b"\n- "` before the first context, `ResErr` does not. -/
theorem c4_context_start_chains_agree {T E : Type} (dispE : E → List Nat)
    (e0 : E) (m : List Nat) (hm : m ≠ []) (ms : List (List Nat)) :
    ctxMsg (chainCtx (new_context_impl (.err e0 : RResult T E) m) ms) =
      resMsg (chainRes (resErrNewContext id (.err e0 : RResult T E) m) ms) ∧
    ctxDisplayOf dispE
        (chainCtx (new_context_impl (.err e0 : RResult T E) m) ms) =
      resDisplayOf dispE
        (chainRes (resErrNewContext id (.err e0 : RResult T E) m) ms) := by
  have h1 : new_context_impl (.err e0 : RResult T E) m =
      .err { msg := m, source := e0 } := rfl
  have h2 : resErrNewContext id (.err e0 : RResult T E) m =
      .err { msg := m, source := e0 } := rfl
  rw [h1, h2, chainCtx_err, chainRes_err_ne _ _ hm]
  exact ⟨rfl, rfl⟩

/-- Witness for C4 (amended): first context `"a"`, then `"b"`, over `Unit`. -/
theorem c4_context_start_chains_agree_witness :
    (([97] : List Nat) ≠ []) ∧
    (ctxMsg (chainCtx (new_context_impl (.err () : RResult Unit Unit) [97])
          [[98]]) =
        resMsg (chainRes (resErrNewContext id (.err () : RResult Unit Unit) [97])
          [[98]]) ∧
      ctxDisplayOf (fun _ : Unit => [115])
          (chainCtx (new_context_impl (.err () : RResult Unit Unit) [97])
            [[98]]) =
        resDisplayOf (fun _ : Unit => [115])
          (chainRes (resErrNewContext id (.err () : RResult Unit Unit) [97])
            [[98]])) :=
  ⟨by decide,
   c4_context_start_chains_agree (fun _ : Unit => [115]) () [97] (by decide)
     [[98]]⟩

/-- **C8** (counterexample).  The safe public constructor `ErrCtx::new` stores
arbitrary bytes verbatim: `ErrCtx::new(e, vec![0xFF])` has a `msg` buffer that
is not valid UTF-8, so the claimed invariant is not maintained by all public
constructors. -/
theorem c8_new_accepts_invalid_utf8 :
    validUtf8 (ErrCtx.new () [255]).msg = false := by decide

/-- **C8** (amended).  The `From` conversion and the string-based context
methods do preserve UTF-8 validity of the `msg` buffer (given valid inputs,
since `b"\n- "` is ASCII); `ErrCtx::new` and the `byte_context` methods store
the caller's bytes verbatim, so their output buffer is valid exactly when the
supplied bytes are valid — the `from_utf8_unchecked` calls are safe only under
that caller obligation, not unconditionally. -/
theorem c8_utf8_validity_preservation {T E : Type} (e : E) (c : ErrCtx E)
    (m b : List Nat) (f : Unit → List Nat) (hc : validUtf8 c.msg = true)
    (hm : validUtf8 m = true) (hf : validUtf8 (f ()) = true)
    (hb : validUtf8 b = true) :
    validUtf8 (errCtxFrom e).msg = true ∧
    validUtf8 (ctxMsg (new_context_impl (.err e : RResult T E) m)) = true ∧
    validUtf8 (ctxMsg (with_context_impl (.err e : RResult T E) f)) = true ∧
    validUtf8 (ctxMsg (extra_ctx_impl (.err c : RResult T (ErrCtx E)) m)) =
      true ∧
    validUtf8 (ctxMsg (extra_with_ctx_impl (.err c : RResult T (ErrCtx E)) f)) =
      true ∧
    validUtf8 (ctxMsg (byte_context_impl (.err e : RResult T E) b)) = true ∧
    validUtf8 (ctxMsg (extra_byte_context_impl (.err c : RResult T (ErrCtx E))
        b)) = true ∧
    validUtf8 (ErrCtx.new e b).msg = true := by
  refine ⟨rfl, hm, hf, ?_, ?_, hb, ?_, hb⟩
  · exact validUtf8_append _ _ (validUtf8_append _ _ hc validUtf8_sepBytes) hm
  · exact validUtf8_append _ _ (validUtf8_append _ _ hc validUtf8_sepBytes) hf
  · exact validUtf8_append _ _ (validUtf8_append _ _ hc validUtf8_sepBytes) hb

/-- Witness for C8 (amended) at concrete valid-UTF-8 inputs over `Unit`. -/
theorem c8_utf8_validity_preservation_witness :
    (validUtf8 (ErrCtx.mk [104] ()).msg = true ∧ validUtf8 [97] = true ∧
      validUtf8 ((fun _ : Unit => [98]) ()) = true ∧
      validUtf8 [99] = true) ∧
    (validUtf8 (errCtxFrom ()).msg = true ∧
      validUtf8 (ctxMsg (new_context_impl (.err () : RResult Unit Unit) [97])) =
        true ∧
      validUtf8 (ctxMsg (with_context_impl (.err () : RResult Unit Unit)
          (fun _ : Unit => [98]))) = true ∧
      validUtf8 (ctxMsg (extra_ctx_impl
          (.err (ErrCtx.mk [104] ()) : RResult Unit (ErrCtx Unit)) [97])) =
        true ∧
      validUtf8 (ctxMsg (extra_with_ctx_impl
          (.err (ErrCtx.mk [104] ()) : RResult Unit (ErrCtx Unit))
          (fun _ : Unit => [98]))) = true ∧
      validUtf8 (ctxMsg (byte_context_impl (.err () : RResult Unit Unit)
          [99])) = true ∧
      validUtf8 (ctxMsg (extra_byte_context_impl
          (.err (ErrCtx.mk [104] ()) : RResult Unit (ErrCtx Unit)) [99])) =
        true ∧
      validUtf8 (ErrCtx.new () [99]).msg = true) :=
  ⟨⟨by decide, by decide, by decide, by decide⟩,
   c8_utf8_validity_preservation () (ErrCtx.mk [104] ()) [97] [99]
     (fun _ : Unit => [98]) (by decide) (by decide) (by decide) (by decide)⟩

end ResExtSpec
